import Mathlib

set_option autoImplicit false

/-
Verification of the StealthIMSession session service.

The Go sources are shallowly embedded below:
  * `cache/memcache.go`  — the in-process bounded TTL cache (`Cache`),
  * `cache/session.go`   — the three-tier session resolver and invalidation,
  * `autoclean`/`grpc`   — the expiry sweeper lifecycle and the reload logic,
  * `grpc` service layer — the `Get` handler result mapping.

Machine integers are modelled as `Int` with explicit two's-complement
wrapping (`wrap32`) where Go performs an `int32` conversion.  Time is the
`int64` nanosecond clock of `time.Now().UnixNano()`, modelled as `Int`.
External collaborators (Redis via the gateway, MySQL via the gateway) are
modelled as oracle inputs: each call's observable effects (cache state,
Redis writes, issued SQL strings, returned value/error) are collected in an
effects record.
-/

namespace StealthIMSession

/-- CacheConfig mirrors `config.CacheConfig`: `mem_timeout` (seconds),
`mem_maxsize` (entry bound), `mem_cleantime` (janitor period, seconds). -/
structure CacheConfig where
  memTimeout : Int
  memMaxsize : Nat
  memCleantime : Int
  deriving Repr, DecidableEq

/-- Nanoseconds per second; `time.Duration(x) * time.Second` in `UnixNano` units. -/
def nanosPerSecond : Int := 1000000000

/-- TTL of a memory-cache entry in nanoseconds: `MemTimeout * time.Second`. -/
def ttlNanos (cfg : CacheConfig) : Int := cfg.memTimeout * nanosPerSecond

/-- MItem mirrors `item` of `memcache.go`: an `int32` value and an `int64`
`UnixNano` expiration instant. -/
structure MItem where
  value : Int
  expiration : Int
  deriving Repr, DecidableEq

/-- Go's zero `item{}`; a read of an absent key from a Go map yields this. -/
def zeroItem : MItem := ⟨0, 0⟩

/-- The `map[string]item` of `Cache.items`, as an association list whose keys
are pairwise distinct in every reachable state. -/
abbrev CMap := List (String × MItem)

/-- Map read returning `Option`: the first binding of the key, if any. -/
def lookupItem : CMap → String → Option MItem
  | [], _ => none
  | (k₀, it₀) :: rest, k => if k₀ = k then some it₀ else lookupItem rest k

/-- Go map read `c.items[key]`: the binding, or the zero `item{}` if absent. -/
def mapGetDefault (c : CMap) (k : String) : MItem :=
  (lookupItem c k).getD zeroItem

/-- Go map write `c.items[key] = it`: replace the binding in place, or append. -/
def mapInsert : CMap → String → MItem → CMap
  | [], k, it => [(k, it)]
  | (k₀, it₀) :: rest, k, it =>
    if k₀ = k then (k, it) :: rest else (k₀, it₀) :: mapInsert rest k it

/-- Go `delete(c.items, key)`. -/
def mapDelete (c : CMap) (k : String) : CMap :=
  c.filter (fun kv => kv.1 ≠ k)

/-- Keys currently held, in representation order. -/
def keysOf (c : CMap) : List String := c.map Prod.fst

/-- Cache.Get of `memcache.go`: `(0, false)` if the key is absent or
`now > item.expiration`; otherwise `(item.value, true)`. -/
def cacheGet (c : CMap) (key : String) (now : Int) : Int × Bool :=
  match lookupItem c key with
  | none => (0, false)
  | some it => if now > it.expiration then (0, false) else (it.value, true)

/-- Cache.evictRandom of `memcache.go`: remove the key at a random index of
the key slice.  The random draw `rand.Intn(len(keys))` is modelled by the
oracle parameter `r`, reduced modulo the length. -/
def evictRandom (c : CMap) (r : Nat) : CMap :=
  if c.length = 0 then c
  else mapDelete c ((keysOf c).getD (r % c.length) "")

/-- Cache.Set of `memcache.go`: expiration is `now + MemTimeout seconds`;
if `len(items) >= MemMaxsize` and `items[key] == item{}` one random entry is
evicted first; then the binding is written. -/
def cacheSet (cfg : CacheConfig) (c : CMap) (key : String) (value : Int)
    (now : Int) (r : Nat) : CMap :=
  let c₁ :=
    if cfg.memMaxsize ≤ c.length ∧ mapGetDefault c key = zeroItem then
      evictRandom c r
    else c
  mapInsert c₁ key ⟨value, now + ttlNanos cfg⟩

/-- Phase 1 of `Cache.deleteExpired`: under the read lock, collect the keys
whose expiration has passed at the captured instant `now`. -/
def collectExpired (c : CMap) (now : Int) : List String :=
  (c.filter (fun kv => decide (now > kv.2.expiration))).map Prod.fst

/-- One step of phase 2 of `Cache.deleteExpired`: re-check the collected key
under the write lock and delete it only if it is still present and still
expired with respect to the captured instant `now`. -/
def phase2Step (now : Int) (c : CMap) (k : String) : CMap :=
  match lookupItem c k with
  | some it => if now > it.expiration then mapDelete c k else c
  | none => c

/-- Phase 2 of `Cache.deleteExpired`: under the write lock, process every
collected key in order. -/
def phase2Delete (now : Int) : CMap → List String → CMap
  | c, [] => c
  | c, k :: ks => phase2Delete now (phase2Step now c k) ks

/-- Cache.deleteExpired of `memcache.go` with no interleaved writer: collect,
then delete the still-expired collected keys. -/
def deleteExpired (c : CMap) (now : Int) : CMap :=
  phase2Delete now c (collectExpired c now)

/- Basic association-list lemmas. -/

theorem lookup_mapInsert_self (c : CMap) (k : String) (it : MItem) :
    lookupItem (mapInsert c k it) k = some it := by
  induction c with
  | nil => simp [mapInsert, lookupItem]
  | cons hd tl ih =>
    by_cases h : hd.1 = k <;> simp [mapInsert, lookupItem, h, ih]

theorem lookup_mapInsert_ne (c : CMap) (k k₂ : String) (it : MItem)
    (h : k₂ ≠ k) : lookupItem (mapInsert c k it) k₂ = lookupItem c k₂ := by
  have hkk : ¬(k = k₂) := fun hh => h hh.symm
  induction c with
  | nil => simp [mapInsert, lookupItem, hkk]
  | cons hd tl ih =>
    by_cases h₀ : hd.1 = k
    · have h₀₂ : ¬(hd.1 = k₂) := by rw [h₀]; exact hkk
      simp [mapInsert, lookupItem, h₀, hkk, h₀₂]
    · by_cases h₂ : hd.1 = k₂ <;> simp [mapInsert, lookupItem, h₀, h₂, ih, h]

theorem lookup_mapDelete (c : CMap) (k e : String) :
    lookupItem (mapDelete c e) k = if k = e then none else lookupItem c k := by
  induction c with
  | nil => simp [mapDelete, lookupItem]
  | cons hd tl ih =>
    by_cases he : hd.1 = e
    · have : mapDelete (hd :: tl) e = mapDelete tl e := by
        simp [mapDelete, List.filter, he]
      rw [this, ih]
      by_cases hk : k = e
      · simp [hk]
      · have hdk : ¬(hd.1 = k) := by
          intro hh; exact hk (hh.symm.trans he)
        simp [hk, lookupItem, hdk]
    · have : mapDelete (hd :: tl) e = hd :: mapDelete tl e := by
        simp [mapDelete, List.filter, he]
      rw [this]
      by_cases hk : hd.1 = k
      · have hke : ¬(k = e) := by
          intro hh; exact he (hk.trans hh)
        simp [lookupItem, hk, hke]
      · simp [lookupItem, hk, ih]

theorem lookup_mapDelete_ne (c : CMap) (k e : String) (h : k ≠ e) :
    lookupItem (mapDelete c e) k = lookupItem c k := by
  simp [lookup_mapDelete, h]

theorem lookup_cacheSet_self (cfg : CacheConfig) (c : CMap) (k : String)
    (v now : Int) (r : Nat) :
    lookupItem (cacheSet cfg c k v now r) k = some ⟨v, now + ttlNanos cfg⟩ := by
  unfold cacheSet
  exact lookup_mapInsert_self _ _ _

theorem length_keysOf (c : CMap) : (keysOf c).length = c.length :=
  List.length_map _ _

theorem keysOf_cons (hd : String × MItem) (tl : CMap) :
    keysOf (hd :: tl) = hd.1 :: keysOf tl := rfl

theorem lookup_eq_none_iff (c : CMap) (k : String) :
    lookupItem c k = none ↔ k ∉ keysOf c := by
  induction c with
  | nil => simp [lookupItem, keysOf]
  | cons hd tl ih =>
    rw [keysOf_cons]
    by_cases h : hd.1 = k
    · simp [lookupItem, h]
    · simp only [lookupItem, if_neg h, List.mem_cons]
      rw [ih]
      constructor
      · intro hn hmem
        rcases hmem with h₁ | h₂
        · exact h h₁.symm
        · exact hn h₂
      · intro hn hmem
        exact hn (Or.inr hmem)

theorem lookup_some_mem (c : CMap) (k : String) (it : MItem)
    (h : lookupItem c k = some it) : (k, it) ∈ c := by
  induction c with
  | nil => simp [lookupItem] at h
  | cons hd tl ih =>
    by_cases h₀ : hd.1 = k
    · obtain ⟨a, b⟩ := hd
      simp only [lookupItem] at h
      simp at h₀
      rw [if_pos (by simpa using h₀)] at h
      simp at h
      rw [← h₀, ← h]
      exact List.mem_cons_self _ _
    · simp only [lookupItem, if_neg h₀] at h
      exact List.mem_cons_of_mem _ (ih h)

theorem length_mapInsert_none (c : CMap) (k : String) (it : MItem)
    (h : lookupItem c k = none) :
    (mapInsert c k it).length = c.length + 1 := by
  induction c with
  | nil => simp [mapInsert]
  | cons hd tl ih =>
    by_cases h₀ : hd.1 = k
    · simp [lookupItem, h₀] at h
    · simp [lookupItem, h₀] at h
      simp [mapInsert, h₀, ih h]

theorem length_mapInsert_some (c : CMap) (k : String) (it it₀ : MItem)
    (h : lookupItem c k = some it₀) :
    (mapInsert c k it).length = c.length := by
  induction c with
  | nil => simp [lookupItem] at h
  | cons hd tl ih =>
    by_cases h₀ : hd.1 = k
    · simp [mapInsert, h₀]
    · simp [lookupItem, h₀] at h
      simp [mapInsert, h₀, ih h]

theorem keysOf_mapInsert_none (c : CMap) (k : String) (it : MItem)
    (h : lookupItem c k = none) :
    keysOf (mapInsert c k it) = keysOf c ++ [k] := by
  induction c with
  | nil => simp [mapInsert, keysOf]
  | cons hd tl ih =>
    by_cases h₀ : hd.1 = k
    · simp [lookupItem, h₀] at h
    · simp [lookupItem, h₀] at h
      simp [mapInsert, keysOf, h₀] at ih ⊢
      exact ih h

theorem keysOf_mapInsert_some (c : CMap) (k : String) (it it₀ : MItem)
    (h : lookupItem c k = some it₀) :
    keysOf (mapInsert c k it) = keysOf c := by
  induction c with
  | nil => simp [lookupItem] at h
  | cons hd tl ih =>
    by_cases h₀ : hd.1 = k
    · simp [mapInsert, keysOf, h₀]
    · simp [lookupItem, h₀] at h
      simp [mapInsert, keysOf, h₀] at ih ⊢
      exact ih h

theorem mapDelete_eq_self (c : CMap) (e : String) (h : e ∉ keysOf c) :
    mapDelete c e = c := by
  induction c with
  | nil => rfl
  | cons hd tl ih =>
    rw [keysOf_cons, List.mem_cons] at h
    push_neg at h
    have h₁ : ¬(hd.1 = e) := fun hh => h.1 hh.symm
    have hdel : mapDelete (hd :: tl) e = hd :: mapDelete tl e := by
      simp [mapDelete, List.filter, h₁]
    rw [hdel, ih h.2]

theorem keysOf_mapDelete (c : CMap) (e : String)
    (hnd : (keysOf c).Nodup) (hm : e ∈ keysOf c) :
    keysOf (mapDelete c e) = (keysOf c).erase e := by
  induction c with
  | nil => simp [keysOf] at hm
  | cons hd tl ih =>
    rw [keysOf_cons] at hnd hm ⊢
    rcases List.mem_cons.mp hm with h₀ | h₀
    · have hnm : e ∉ keysOf tl := by
        rw [h₀]; exact (List.nodup_cons.mp hnd).1
      have hdel : mapDelete (hd :: tl) e = mapDelete tl e := by
        simp [mapDelete, List.filter, h₀.symm]
      rw [hdel, mapDelete_eq_self tl e hnm, List.erase_cons]
      simp [h₀.symm]
    · have h₁ : ¬(hd.1 = e) := by
        intro hh
        exact (List.nodup_cons.mp hnd).1 (hh ▸ h₀)
      have hdel : mapDelete (hd :: tl) e = hd :: mapDelete tl e := by
        simp [mapDelete, List.filter, h₁]
      rw [hdel, keysOf_cons, ih (List.nodup_cons.mp hnd).2 h₀,
        List.erase_cons]
      simp [h₁]

theorem length_mapDelete_mem (c : CMap) (e : String)
    (hnd : (keysOf c).Nodup) (hm : e ∈ keysOf c) :
    (mapDelete c e).length + 1 = c.length := by
  have h := congrArg List.length (keysOf_mapDelete c e hnd hm)
  rw [length_keysOf, List.length_erase_of_mem hm, length_keysOf] at h
  have hp : 0 < c.length := by
    rw [← length_keysOf]
    exact List.length_pos_of_mem hm
  omega

theorem evictRandom_spec (c : CMap) (r : Nat) (hpos : 0 < c.length) :
    ∃ e ∈ keysOf c, evictRandom c r = mapDelete c e := by
  refine ⟨(keysOf c).getD (r % c.length) "", ?_, ?_⟩
  · have hlt : r % c.length < (keysOf c).length := by
      rw [length_keysOf]
      exact Nat.mod_lt _ hpos
    rw [List.getD_eq_getElem _ _ hlt]
    exact List.getElem_mem _
  · unfold evictRandom
    rw [if_neg (Nat.pos_iff_ne_zero.mp hpos)]

theorem phase2Step_length_le (now : Int) (c : CMap) (k : String) :
    (phase2Step now c k).length ≤ c.length := by
  unfold phase2Step
  split
  · split
    · exact List.length_filter_le _ _
    · exact Nat.le_refl _
  · exact Nat.le_refl _

theorem phase2Delete_length_le (now : Int) (ks : List String) (c : CMap) :
    (phase2Delete now c ks).length ≤ c.length := by
  induction ks generalizing c with
  | nil => exact Nat.le_refl _
  | cons k ks ih =>
    exact Nat.le_trans (ih (phase2Step now c k)) (phase2Step_length_le now c k)

theorem phase2Step_keeps_fresh (now : Int) (c : CMap) (k k₀ : String)
    (it : MItem) (hl : lookupItem c k = some it)
    (hexp : ¬ now > it.expiration) :
    lookupItem (phase2Step now c k₀) k = some it := by
  unfold phase2Step
  split
  · rename_i it₀ heq
    split
    · rename_i hexp₀
      by_cases hk : k = k₀
      · rw [hk] at hl
        rw [hl] at heq
        injection heq with hit
        rw [← hit] at hexp₀
        exact absurd hexp₀ hexp
      · rw [lookup_mapDelete_ne c k k₀ hk]
        exact hl
    · exact hl
  · exact hl

theorem phase2Delete_keeps_fresh (now : Int) (ks : List String) (c : CMap)
    (k : String) (it : MItem) (hl : lookupItem c k = some it)
    (hexp : ¬ now > it.expiration) :
    lookupItem (phase2Delete now c ks) k = some it := by
  induction ks generalizing c with
  | nil => exact hl
  | cons k₀ ks ih =>
    exact ih (phase2Step now c k₀)
      (phase2Step_keeps_fresh now c k k₀ it hl hexp)

/-
ExpirySweeper (package `autoclean`) and ReloadCoordinator
(`grpc.ReloadSessionService` plus `main.main`).

A `Cleaner` models one `autoclean.SessionCleaner` instance; `id` models its
pointer identity, and its sweep parameters are captured from the
configuration at construction time (`NewSessionCleaner`).  `SweepSys`
models the set of currently running cleaner goroutine loops together with
the package-level variable `grpc.sessionCleaner` (`tracked`), which is the
only instance `ReloadSessionService` can stop.  `main.main` stores its
startup cleaner in a local variable, so `tracked` starts out `none`.
-/

/-- SessionConfig of `config.go`: `expire_hours` and `clean_interval`. -/
structure SessCfg where
  expireHours : Int
  cleanInterval : Int
  deriving Repr, DecidableEq

/-- One `autoclean.SessionCleaner` instance. -/
structure Cleaner where
  id : Nat
  expireHours : Int
  cleanInterval : Int
  deriving Repr, DecidableEq

/-- The running cleaner instances plus the `grpc.sessionCleaner` variable. -/
structure SweepSys where
  running : List Cleaner
  tracked : Option Cleaner
  deriving Repr, DecidableEq

/-- NewSessionCleaner: capture the current configuration parameters. -/
def newSessionCleaner (cfg : SessCfg) (fid : Nat) : Cleaner :=
  ⟨fid, cfg.expireHours, cfg.cleanInterval⟩

/-- Main.main startup: unless disabled by environment variable, construct and
start a cleaner held in a local variable of `main`; the `grpc` package
variable `sessionCleaner` is left nil. -/
def mainStartup (cfg : SessCfg) (disableCleaner : Bool) : SweepSys :=
  if disableCleaner then ⟨[], none⟩
  else ⟨[newSessionCleaner cfg 0], none⟩

/-- ReloadSessionService of the grpc package: compare the two sweeper
parameters of the old and re-read configuration; if either changed, stop
`sessionCleaner` when it is non-nil, then construct and start a new cleaner
and store it in `sessionCleaner`; otherwise change nothing. -/
def reloadSessionService (st : SweepSys) (oldCfg newCfg : SessCfg)
    (fid : Nat) : SweepSys :=
  if oldCfg.expireHours = newCfg.expireHours ∧
      oldCfg.cleanInterval = newCfg.cleanInterval then st
  else
    let afterStop : List Cleaner :=
      match st.tracked with
      | some cl => st.running.erase cl
      | none => st.running
    let nc := newSessionCleaner newCfg fid
    ⟨afterStop ++ [nc], some nc⟩

/-
SessionResolver (`cache/session.go`).

`strconv.ParseInt(s, 10, 32)` is modelled by `parseInt32`; the Go `int32`
conversion applied to an `int64` is modelled by `wrap32`.  The Redis and
MySQL collaborators are oracle inputs (`RedisGet`, `SqlRes`); the observable
outcome of one call is an `Effects` record holding the Go return pair, the
memory-cache state after the call, the Redis `SET` requests issued, and the
SQL statements issued.
-/

/-- The single-quote character spliced around tokens in the SQL templates. -/
def sq : Char := Char.ofNat 39

/-- Number of single quotes in a string. -/
def countQuote (s : String) : Nat := s.data.count sq

/-- String of a single quote character. -/
def quoteS : String := String.mk [sq]

/-- SELECT template of `GetUserIDBySession`, token spliced verbatim. -/
def getQuery (t : String) : String :=
  "SELECT uid FROM session_db WHERE session_id = " ++ quoteS ++ t ++ quoteS
    ++ " LIMIT 1"

/-- INSERT template of `SaveSession`, token spliced verbatim. -/
def saveQuery (t : String) (uid : Int) : String :=
  "INSERT INTO session_db (session_id, uid) VALUES (" ++ quoteS ++ t
    ++ quoteS ++ ", " ++ toString uid ++ ")"

/-- DELETE template of `DeleteSession`, token spliced verbatim. -/
def deleteQuery (t : String) : String :=
  "DELETE FROM session_db WHERE session_id = " ++ quoteS ++ t ++ quoteS

/-- Redis key namespacing `session:session:<token>`. -/
def redisKeyOf (t : String) : String := "session:session:" ++ t

/-- Accumulate the decimal value of a digit run; any non-digit rejects. -/
def decNatAux : List Char → Nat → Option Nat
  | [], acc => some acc
  | ch :: cs, acc =>
    if ch.isDigit then decNatAux cs (10 * acc + (ch.toNat - 48)) else none

/-- Decimal digits to a natural number; the digit run must be non-empty. -/
def decNat : List Char → Option Nat
  | [] => none
  | cs => decNatAux cs 0

/-- Largest `int32` value. -/
def int32Max : Int := 2147483647

/-- Smallest `int32` value. -/
def int32Min : Int := -2147483648

/-- ParseInt of Go (`strconv.ParseInt(s, 10, 32)`): an optional sign, a
non-empty digit run, and a 32-bit range check; `none` models a non-nil
error (syntax or range). -/
def parseInt32 (s : String) : Option Int :=
  match s.data with
  | [] => none
  | ch :: cs =>
    if ch = Char.ofNat 43 then
      (decNat cs).bind (fun n => if (n : Int) ≤ int32Max then some (n : Int) else none)
    else if ch = Char.ofNat 45 then
      (decNat cs).bind (fun n => if -(n : Int) < int32Min then none else some (-(n : Int)))
    else
      (decNat (ch :: cs)).bind (fun n => if (n : Int) ≤ int32Max then some (n : Int) else none)

/-- Go conversion `int32(x)` of an `int64` value: two's-complement
truncation to the low 32 bits. -/
def wrap32 (x : Int) : Int :=
  (x + 2147483648) % 4294967296 - 2147483648

/-- Result of `gateway.ExecRedisGet`: `err` covers a gateway error or a nil
response, `ok v` is a response carrying string value `v` (absent key gives
the empty string). -/
inductive RedisGet where
  | err : RedisGet
  | ok : String → RedisGet
  deriving Repr, DecidableEq

/-- One typed-variant scalar of a DBGateway row (`InterFaceType.Response`):
32-bit integer, 64-bit integer, string, or any other variant. -/
inductive IFVal where
  | i32 : Int → IFVal
  | i64 : Int → IFVal
  | str : String → IFVal
  | other : IFVal
  deriving Repr, DecidableEq

/-- One row of an `SqlResponse` (`row.Result`). -/
structure SqlRow where
  result : List IFVal
  deriving Repr, DecidableEq

/-- Result of `gateway.ExecSQL` for the SELECT: a gateway error with its
message, a nil response, or a response carrying `Data`. -/
inductive SqlRes where
  | err : String → SqlRes
  | nilResp : SqlRes
  | ok : List SqlRow → SqlRes
  deriving Repr, DecidableEq

/-- Observable outcome of one `GetUserIDBySession` call: the Go return pair
(`uid`, error message if any), the memory cache afterwards, the Redis SET
requests `(key, value, ttlSeconds)` issued, and the SQL statements issued. -/
structure Effects where
  result : Int × Option String
  cache : CMap
  redisSets : List (String × String × Int)
  sqlQueries : List String
  deriving Repr, DecidableEq

/-- CacheInvalidSession of `session.go`: set the memory-cache entry to `-1`
and issue a Redis SET of `"-1"` with TTL 3600 seconds. -/
def cacheInvalidSession (cfg : CacheConfig) (c : CMap) (now : Int) (r : Nat)
    (t : String) : CMap × List (String × String × Int) :=
  (cacheSet cfg c t (-1) now r, [(redisKeyOf t, "-1", 3600)])

/-- Step 3 of `GetUserIDBySession`: the MySQL tier.  Every failure
(query error, nil/empty response, empty row, unparsable or unexpected
value, non-positive uid) caches the invalid sentinel; success writes the
uid to Redis (TTL 3600) and to the memory cache. -/
def sqlStep (cfg : CacheConfig) (c : CMap) (now : Int) (r : Nat) (t : String)
    (sql : SqlRes) : Effects :=
  let q := getQuery t
  let invalid : String → Effects := fun msg =>
    let ci := cacheInvalidSession cfg c now r t
    ⟨(0, some msg), ci.1, ci.2, [q]⟩
  let finish : Int → Effects := fun uid =>
    if uid ≤ 0 then invalid ("invalid uid: " ++ toString uid)
    else
      ⟨(uid, none), cacheSet cfg c t uid now r,
        [(redisKeyOf t, toString uid, 3600)], [q]⟩
  match sql with
  | SqlRes.err m => invalid ("database error: " ++ m)
  | SqlRes.nilResp => invalid ("session not found: " ++ t)
  | SqlRes.ok [] => invalid ("session not found: " ++ t)
  | SqlRes.ok (row :: _) =>
    match row.result with
    | [] => invalid "empty result from database"
    | v₀ :: _ =>
      match v₀ with
      | IFVal.i32 x => finish x
      | IFVal.i64 x => finish (wrap32 x)
      | IFVal.str s =>
        match parseInt32 s with
        | some x => finish x
        | none => invalid ("invalid uid string: " ++ s)
      | IFVal.other => invalid "unexpected uid type"

/-- GetUserIDBySession of `session.go`: memory cache, then Redis, then
MySQL.  A memory hit of `-1` is the invalid-session sentinel.  A non-empty,
integer-parsable Redis hit is backfilled into the memory cache (sentinel
included); otherwise the call falls through to the MySQL tier. -/
def getUserIDBySession (cfg : CacheConfig) (c : CMap) (now : Int) (r : Nat)
    (t : String) (redis : RedisGet) (sql : SqlRes) : Effects :=
  if (cacheGet c t now).2 then
    if (cacheGet c t now).1 = -1 then
      ⟨(0, some ("invalid session: " ++ t)), c, [], []⟩
    else ⟨((cacheGet c t now).1, none), c, [], []⟩
  else
    match redis with
    | RedisGet.err => sqlStep cfg c now r t sql
    | RedisGet.ok v =>
      if v = "" then sqlStep cfg c now r t sql
      else
        match parseInt32 v with
        | none => sqlStep cfg c now r t sql
        | some uid =>
          if uid = -1 then
            ⟨(0, some ("invalid session: " ++ t)), cacheSet cfg c t (-1) now r, [], []⟩
          else ⟨(uid, none), cacheSet cfg c t uid now r, [], []⟩

/-- Observable outcome of `SaveSession`: error message if any, and the SQL
statements issued (no cache tier is touched). -/
structure SaveEffects where
  result : Option String
  sqlQueries : List String
  deriving Repr, DecidableEq

/-- SaveSession of `session.go`: INSERT into the record store only. -/
def saveSession (t : String) (uid : Int) (sqlErr : Option String) : SaveEffects :=
  match sqlErr with
  | some m => ⟨some ("database error: " ++ m), [saveQuery t uid]⟩
  | none => ⟨none, [saveQuery t uid]⟩

/-- Observable outcome of `DeleteSession`. -/
structure DelEffects where
  result : Option String
  cache : CMap
  redisSets : List (String × String × Int)
  sqlQueries : List String
  deriving Repr, DecidableEq

/-- DeleteSession of `session.go`: DELETE from the record store; on error
return it with both caches untouched; on success overwrite both cache
tiers with the `-1` sentinel via `cacheInvalidSession`. -/
def deleteSession (cfg : CacheConfig) (c : CMap) (now : Int) (r : Nat)
    (t : String) (sqlErr : Option String) : DelEffects :=
  match sqlErr with
  | some m => ⟨some ("database error: " ++ m), c, [], [deleteQuery t]⟩
  | none =>
    let ci := cacheInvalidSession cfg c now r t
    ⟨none, ci.1, ci.2, [deleteQuery t]⟩

/-- Server.Get of the grpc package: an error from `GetUserIDBySession` maps
to `(code 1, uid 0)`; success maps to `(code 0, uid)`. -/
def serverGet (eff : Effects) : Int × Int :=
  match eff.result.2 with
  | some _ => (1, 0)
  | none => (0, eff.result.1)

/-- Redis tier falls through to MySQL: gateway error or nil response, empty
value, or a value `ParseInt` rejects. -/
def redisFallsThrough : RedisGet → Prop
  | RedisGet.err => True
  | RedisGet.ok v => v = "" ∨ parseInt32 v = none

/-- Decoded uid of the first scalar, after Go's narrowing conversions:
`int32` taken as is, `int64` truncated, strings via bounded `ParseInt`. -/
def decodeUid : IFVal → Option Int
  | IFVal.i32 x => some x
  | IFVal.i64 x => some (wrap32 x)
  | IFVal.str s => parseInt32 s
  | IFVal.other => none

/-- The five failure modes of the MySQL tier named by the specification:
query error, no row, empty row, unparsable string value, or decoded
uid ≤ 0. -/
def sqlFails : SqlRes → Prop
  | SqlRes.err _ => True
  | SqlRes.nilResp => True
  | SqlRes.ok [] => True
  | SqlRes.ok (row :: _) =>
    match row.result with
    | [] => True
    | v₀ :: _ =>
      (match v₀ with
        | IFVal.str s => parseInt32 s = none
        | _ => False) ∨
      (match decodeUid v₀ with
        | some u => u ≤ 0
        | none => False)

/-- Concrete configuration used by witnesses: 60 s memory TTL, 1024 max
entries, 120 s janitor period. -/
def cfgEx : CacheConfig := ⟨60, 1024, 120⟩

/-
Claim theorems.
-/

/-- Claim C1, counterexample: after process startup (cleaner running, the
grpc package variable nil) a reload whose expiry-age parameter changed
(24 ≠ 48) leaves the startup cleaner instance running — it is not stopped,
contradicting the claim that the currently running instance, including the
one started at process startup, is stopped. -/
theorem c1_counterexample :
    ¬((24 : Int) = 48) ∧
    mainStartup ⟨24, 60⟩ false = ⟨[newSessionCleaner ⟨24, 60⟩ 0], none⟩ ∧
    newSessionCleaner ⟨24, 60⟩ 0 ∈
      (reloadSessionService (mainStartup ⟨24, 60⟩ false) ⟨24, 60⟩ ⟨48, 60⟩ 1).running := by
  refine ⟨by decide, rfl, ?_⟩
  decide

/-- Claim C1, amended: a reload stops and replaces a sweeper if and only if
one of the two sweeper parameters changed, but the only instance it can
stop is the one tracked by the reload coordinator (`grpc.sessionCleaner`);
running instances that are not tracked — in particular the one started by
`main` at process startup — are never stopped by a reload. -/
theorem c1_amended (st : SweepSys) (oldCfg newCfg : SessCfg) (fid : Nat)
    (hnd : st.running.Nodup)
    (hfresh : ∀ cl ∈ st.running, cl.id ≠ fid) :
    (oldCfg.expireHours = newCfg.expireHours ∧
        oldCfg.cleanInterval = newCfg.cleanInterval →
      reloadSessionService st oldCfg newCfg fid = st) ∧
    (¬(oldCfg.expireHours = newCfg.expireHours ∧
        oldCfg.cleanInterval = newCfg.cleanInterval) →
      (reloadSessionService st oldCfg newCfg fid).tracked
          = some (newSessionCleaner newCfg fid) ∧
      newSessionCleaner newCfg fid
          ∈ (reloadSessionService st oldCfg newCfg fid).running ∧
      (∀ cl ∈ st.running, st.tracked ≠ some cl →
        cl ∈ (reloadSessionService st oldCfg newCfg fid).running) ∧
      (∀ cl, st.tracked = some cl → cl ∈ st.running →
        cl ∉ (reloadSessionService st oldCfg newCfg fid).running)) := by
  constructor
  · intro h
    unfold reloadSessionService
    rw [if_pos h]
  · intro h
    cases htr : st.tracked with
    | none =>
      have hred : reloadSessionService st oldCfg newCfg fid
          = ⟨st.running ++ [newSessionCleaner newCfg fid],
             some (newSessionCleaner newCfg fid)⟩ := by
        simp only [reloadSessionService, if_neg h, htr]
      rw [hred]
      refine ⟨rfl, ?_, ?_, ?_⟩
      · exact List.mem_append_right _ (List.mem_singleton.mpr rfl)
      · intro cl hcl _
        exact List.mem_append_left _ hcl
      · intro cl hcl
        exact absurd hcl (by simp)
    | some c₀ =>
      have hred : reloadSessionService st oldCfg newCfg fid
          = ⟨st.running.erase c₀ ++ [newSessionCleaner newCfg fid],
             some (newSessionCleaner newCfg fid)⟩ := by
        simp only [reloadSessionService, if_neg h, htr]
      rw [hred]
      refine ⟨rfl, ?_, ?_, ?_⟩
      · exact List.mem_append_right _ (List.mem_singleton.mpr rfl)
      · intro cl hcl hne
        have hcne : cl ≠ c₀ := by
          intro hh
          exact hne (by rw [hh])
        exact List.mem_append_left _ ((List.mem_erase_of_ne hcne).mpr hcl)
      · intro cl hcl hmem hcontra
        injection hcl with hcl
        rcases List.mem_append.mp hcontra with hin | hin
        · rw [← hcl] at hin
          have := (List.Nodup.mem_erase_iff hnd).mp hin
          exact this.1 rfl
        · have hid : cl.id = fid := by
            rw [List.mem_singleton.mp hin]
            rfl
          exact hfresh cl hmem hid

/-- Claim C1 witness: the amended reload behaviour evaluated at a concrete
post-reload state. -/
theorem c1_amended_witness :
    newSessionCleaner ⟨48, 60⟩ 1 ∈
      (reloadSessionService ⟨[newSessionCleaner ⟨24, 60⟩ 0], none⟩
        ⟨24, 60⟩ ⟨48, 60⟩ 1).running :=
  ((c1_amended ⟨[newSessionCleaner ⟨24, 60⟩ 0], none⟩ ⟨24, 60⟩ ⟨48, 60⟩ 1
      (by decide) (by decide)).2 (by decide)).2.1

/-- Claim C3, counterexample: with a 5-second TTL, an entry set at time 0 is
still returned with found = true by a get at exactly t0 + T (5 seconds in
nanoseconds), because expiry uses the strict comparison `now > expiration`;
the claim asserts found = false at every t ≥ t0 + T. -/
theorem c3_counterexample :
    (5 : Int) * nanosPerSecond = 0 + ttlNanos ⟨5, 16, 1⟩ ∧
    cacheGet (cacheSet ⟨5, 16, 1⟩ [] "k" 7 0 0) "k" (5 * nanosPerSecond)
      = (7, true) := by
  constructor
  · decide
  · decide

/-- Claim C3, amended: an entry set at t0 with configured TTL T is returned
with found = true at every t with t0 ≤ t ≤ t0 + T, and found = false at
every t strictly after t0 + T (the boundary instant t0 + T itself is still
a hit). -/
theorem c3_amended (cfg : CacheConfig) (c : CMap) (k : String) (v t₀ t : Int)
    (r : Nat) (hle : t₀ ≤ t) :
    (t ≤ t₀ + ttlNanos cfg →
      cacheGet (cacheSet cfg c k v t₀ r) k t = (v, true)) ∧
    (t₀ + ttlNanos cfg < t →
      cacheGet (cacheSet cfg c k v t₀ r) k t = (0, false)) := by
  have hl := lookup_cacheSet_self cfg c k v t₀ r
  constructor
  · intro h
    simp only [cacheGet, hl]
    rw [if_neg (show ¬ t > t₀ + ttlNanos cfg by omega)]
  · intro h
    simp only [cacheGet, hl]
    rw [if_pos (show t > t₀ + ttlNanos cfg by omega)]

/-- Claim C3 witness: the amended get behaviour at a concrete input. -/
theorem c3_amended_witness :
    ((0 : Int) ≤ 1 ∧ (1 : Int) ≤ 0 + ttlNanos cfgEx) ∧
    cacheGet (cacheSet cfgEx [] "k" 9 0 0) "k" 1 = (9, true) :=
  ⟨⟨by decide, by decide⟩,
    (c3_amended cfgEx [] "k" 9 0 1 0 (by decide)).1 (by decide)⟩

/-- Claim C5, counterexample: a record-store row carrying the wide-integer
value 4294967301 (positive, above the 32-bit range) resolves to userID 5,
not 4294967301: Go's `int32(v.Int64)` truncates to the low 32 bits, so a
wide-integer value v > 0 does not always yield userID v. -/
theorem c5_counterexample :
    (0 : Int) < 4294967301 ∧
    (getUserIDBySession cfgEx [] 0 0 "t" (RedisGet.ok "")
        (SqlRes.ok [⟨[IFVal.i64 4294967301]⟩])).result = (5, none) ∧
    (5 : Int) ≠ 4294967301 := by
  refine ⟨by decide, ?_, by decide⟩
  decide

/-- Claim C5, amended: for a value v within the positive `int32` range
(0 < v < 2^31), all three representation variants — narrow integer, wide
integer, and a numeric string parsing to v — normalize to the same returned
userID v; wide integers outside that range are truncated two's-complement
and may resolve differently. -/
theorem c5_amended (cfg : CacheConfig) (c : CMap) (now : Int) (r : Nat)
    (t : String) (rest : List IFVal) (rows : List SqlRow) (v : Int) (s : String)
    (hmiss : (cacheGet c t now).2 = false)
    (hpos : 0 < v) (hlt : v < 2147483648)
    (hs : parseInt32 s = some v) :
    (getUserIDBySession cfg c now r t RedisGet.err
        (SqlRes.ok (⟨IFVal.i32 v :: rest⟩ :: rows))).result = (v, none) ∧
    (getUserIDBySession cfg c now r t RedisGet.err
        (SqlRes.ok (⟨IFVal.i64 v :: rest⟩ :: rows))).result = (v, none) ∧
    (getUserIDBySession cfg c now r t RedisGet.err
        (SqlRes.ok (⟨IFVal.str s :: rest⟩ :: rows))).result = (v, none) := by
  have hwrap : wrap32 v = v := by
    unfold wrap32
    rw [Int.emod_eq_of_lt (by omega) (by omega)]
    omega
  have hred : ∀ sql, getUserIDBySession cfg c now r t RedisGet.err sql
      = sqlStep cfg c now r t sql := by
    intro sql
    unfold getUserIDBySession
    simp [hmiss]
  have hnp : ¬ v ≤ 0 := by omega
  refine ⟨?_, ?_, ?_⟩
  · rw [hred]
    simp only [sqlStep]
    rw [if_neg hnp]
  · rw [hred]
    simp only [sqlStep, hwrap]
    rw [if_neg hnp]
  · rw [hred]
    simp only [sqlStep, hs]
    rw [if_neg hnp]

/-- Claim C5 witness: the three variants at the concrete value 42. -/
theorem c5_amended_witness :
    ((0 : Int) < 42 ∧ (42 : Int) < 2147483648 ∧ parseInt32 "42" = some 42) ∧
    (getUserIDBySession cfgEx [] 0 0 "a" RedisGet.err
        (SqlRes.ok [⟨[IFVal.i64 42]⟩])).result = (42, none) :=
  ⟨⟨by decide, by decide, by decide⟩,
    (c5_amended cfgEx [] 0 0 "a" [] [] 42 "42" rfl (by decide) (by decide)
      (by decide)).2.1⟩

/-- Claim C9: a Distributed Cache hit whose non-empty decimal string parses
to a value v with v ≤ 0 and v ≠ -1 is treated as a valid hit: the memory
cache is backfilled with v, no record-store query is issued, and v is
returned as a successful userID. -/
theorem c9_redis_nonpositive_hit (cfg : CacheConfig) (c : CMap) (now : Int)
    (r : Nat) (t : String) (sql : SqlRes) (s : String) (v : Int)
    (hmiss : (cacheGet c t now).2 = false)
    (hne : ¬ s = "")
    (hp : parseInt32 s = some v)
    (hnp : v ≤ 0) (hv : v ≠ -1) :
    (getUserIDBySession cfg c now r t (RedisGet.ok s) sql).result = (v, none) ∧
    lookupItem (getUserIDBySession cfg c now r t (RedisGet.ok s) sql).cache t
      = some ⟨v, now + ttlNanos cfg⟩ ∧
    (getUserIDBySession cfg c now r t (RedisGet.ok s) sql).sqlQueries = [] := by
  have hg : getUserIDBySession cfg c now r t (RedisGet.ok s) sql
      = ⟨(v, none), cacheSet cfg c t v now r, [], []⟩ := by
    unfold getUserIDBySession
    simp [hmiss, hne, hp, hv]
  rw [hg]
  exact ⟨rfl, lookup_cacheSet_self cfg c t v now r, rfl⟩

/-- Claim C9 witness: a cached "-2" is returned as a successful userID. -/
theorem c9_witness :
    ((cacheGet [] "a" 0).2 = false ∧ parseInt32 "-2" = some (-2) ∧
      (-2 : Int) ≤ 0 ∧ (-2 : Int) ≠ -1) ∧
    (getUserIDBySession cfgEx [] 0 0 "a" (RedisGet.ok "-2")
        SqlRes.nilResp).result = (-2, none) :=
  ⟨⟨rfl, by decide, by decide, by decide⟩,
    (c9_redis_nonpositive_hit cfgEx [] 0 0 "a" SqlRes.nilResp "-2" (-2) rfl
      (by decide) (by decide) (by decide) (by decide)).1⟩

theorem sqlStep_fails (cfg : CacheConfig) (c : CMap) (now : Int) (r : Nat)
    (t : String) (sql : SqlRes) (h : sqlFails sql) :
    (sqlStep cfg c now r t sql).cache = cacheSet cfg c t (-1) now r ∧
    (sqlStep cfg c now r t sql).redisSets = [(redisKeyOf t, "-1", 3600)] ∧
    (sqlStep cfg c now r t sql).result.1 = 0 ∧
    (sqlStep cfg c now r t sql).result.2.isSome = true ∧
    (sqlStep cfg c now r t sql).sqlQueries = [getQuery t] := by
  cases sql with
  | err m => exact ⟨rfl, rfl, rfl, rfl, rfl⟩
  | nilResp => exact ⟨rfl, rfl, rfl, rfl, rfl⟩
  | ok data =>
    cases data with
    | nil => exact ⟨rfl, rfl, rfl, rfl, rfl⟩
    | cons row rest =>
      obtain ⟨l⟩ := row
      cases l with
      | nil => exact ⟨rfl, rfl, rfl, rfl, rfl⟩
      | cons v₀ vrest =>
        cases v₀ with
        | i32 x =>
          have hx : False ∨ x ≤ 0 := h
          rcases hx with hx | hx
          · exact hx.elim
          · simp only [sqlStep]
            rw [if_pos hx]
            exact ⟨rfl, rfl, rfl, rfl, rfl⟩
        | i64 x =>
          have hx : False ∨ wrap32 x ≤ 0 := h
          rcases hx with hx | hx
          · exact hx.elim
          · simp only [sqlStep]
            rw [if_pos hx]
            exact ⟨rfl, rfl, rfl, rfl, rfl⟩
        | str s =>
          cases hp : parseInt32 s with
          | none => simp [sqlStep, cacheInvalidSession, hp]
          | some u =>
            have hx : parseInt32 s = none ∨
                (match parseInt32 s with
                  | some u => u ≤ 0
                  | none => False) := h
            rcases hx with hx | hx
            · rw [hp] at hx
              exact absurd hx (by simp)
            · rw [hp] at hx
              have hu : u ≤ 0 := hx
              simp [sqlStep, cacheInvalidSession, hp, hu]
        | other =>
          have hx : False ∨ False := h
          rcases hx with hx | hx <;> exact hx.elim

/-- Claim C2: whenever a resolve call reaches the record-store tier (memory
miss and Redis fall-through) and the store fails in any of the five named
ways, the outcome is uniform: the sentinel -1 is cached in the memory cache
(with the configured TTL) and pushed to Redis under key
`session:session:<token>` with TTL 3600 s, and the call returns uid 0 with
an error. -/
theorem c2_store_failure_uniform (cfg : CacheConfig) (c : CMap) (now : Int)
    (r : Nat) (t : String) (redis : RedisGet) (sql : SqlRes)
    (hmiss : (cacheGet c t now).2 = false)
    (hred : redisFallsThrough redis)
    (hsql : sqlFails sql) :
    (getUserIDBySession cfg c now r t redis sql).redisSets
        = [("session:session:" ++ t, "-1", 3600)] ∧
    lookupItem (getUserIDBySession cfg c now r t redis sql).cache t
        = some ⟨-1, now + ttlNanos cfg⟩ ∧
    (getUserIDBySession cfg c now r t redis sql).result.1 = 0 ∧
    (getUserIDBySession cfg c now r t redis sql).result.2.isSome = true := by
  have hg : getUserIDBySession cfg c now r t redis sql
      = sqlStep cfg c now r t sql := by
    unfold getUserIDBySession
    cases redis with
    | err => simp [hmiss]
    | ok v =>
      rcases (hred : v = "" ∨ parseInt32 v = none) with hv | hv
      · simp [hmiss, hv]
      · by_cases hv0 : v = ""
        · simp [hmiss, hv0]
        · simp [hmiss, hv0, hv]
  have hs := sqlStep_fails cfg c now r t sql hsql
  rw [hg]
  refine ⟨hs.2.1, ?_, hs.2.2.1, hs.2.2.2.1⟩
  rw [hs.1]
  exact lookup_cacheSet_self cfg c t (-1) now r

/-- Claim C2 witness: a no-row store response for an uncached token. -/
theorem c2_witness :
    ((cacheGet [] "a" 0).2 = false ∧ redisFallsThrough RedisGet.err ∧
      sqlFails SqlRes.nilResp) ∧
    (getUserIDBySession cfgEx [] 0 0 "a" RedisGet.err SqlRes.nilResp).redisSets
      = [("session:session:" ++ "a", "-1", 3600)] :=
  ⟨⟨rfl, trivial, trivial⟩,
    (c2_store_failure_uniform cfgEx [] 0 0 "a" RedisGet.err SqlRes.nilResp
      rfl trivial trivial).1⟩

/-- Claim C6: invalidate issues the record-store delete first; an error is
returned iff that delete fails, in which case neither cache tier is
modified; on success both tiers are overwritten with the sentinel -1 (the
entries are written, not deleted) and success is returned. -/
theorem c6_invalidate (cfg : CacheConfig) (c : CMap) (now : Int) (r : Nat)
    (t : String) (sqlErr : Option String) :
    ((deleteSession cfg c now r t sqlErr).result = none ↔ sqlErr = none) ∧
    (∀ m, sqlErr = some m →
      (deleteSession cfg c now r t sqlErr).cache = c ∧
      (deleteSession cfg c now r t sqlErr).redisSets = []) ∧
    (sqlErr = none →
      lookupItem (deleteSession cfg c now r t sqlErr).cache t
          = some ⟨-1, now + ttlNanos cfg⟩ ∧
      (deleteSession cfg c now r t sqlErr).redisSets
          = [(redisKeyOf t, "-1", 3600)] ∧
      (deleteSession cfg c now r t sqlErr).result = none) := by
  cases sqlErr with
  | some m =>
    refine ⟨by simp [deleteSession], fun m₂ _ => ⟨rfl, rfl⟩, fun hc => by simp at hc⟩
  | none =>
    refine ⟨by simp [deleteSession], fun m₂ hm => by simp at hm,
      fun _ => ⟨?_, rfl, rfl⟩⟩
    exact lookup_cacheSet_self cfg c t (-1) now r

/-- Claim C6 witness: both the failing and the succeeding delete at a
concrete input. -/
theorem c6_witness :
    (deleteSession cfgEx [] 0 0 "a" (some "boom")).cache = [] ∧
    (deleteSession cfgEx [] 0 0 "a" none).redisSets
      = [(redisKeyOf "a", "-1", 3600)] :=
  ⟨((c6_invalidate cfgEx [] 0 0 "a" (some "boom")).2.1 "boom" rfl).1,
    ((c6_invalidate cfgEx [] 0 0 "a" none).2.2 rfl).2.1⟩

/-- Claim C8: a key collected as expired in phase 1 of a janitor cycle whose
entry is refreshed by a set between the phases, so that its new expiry
instant lies in the future of the cycle's captured clock, is not deleted in
phase 2: the refreshed binding survives the whole phase-2 deletion pass. -/
theorem c8_janitor_refresh (cfg : CacheConfig) (c₁ cmid : CMap)
    (now ts v : Int) (r : Nat) (k : String)
    (hcol : k ∈ collectExpired c₁ now)
    (hfut : now < ts + ttlNanos cfg) :
    lookupItem
      (phase2Delete now (cacheSet cfg cmid k v ts r) (collectExpired c₁ now)) k
      = some ⟨v, ts + ttlNanos cfg⟩ := by
  apply phase2Delete_keeps_fresh
  · exact lookup_cacheSet_self cfg cmid k v ts r
  · show ¬ now > ts + ttlNanos cfg
    omega

/-- Claim C8 witness: a concrete collected key refreshed between phases. -/
theorem c8_witness :
    ("k" ∈ collectExpired [("k", ⟨1, 0⟩)] 1 ∧
      (1 : Int) < 1 + ttlNanos ⟨5, 16, 1⟩) ∧
    lookupItem
      (phase2Delete 1 (cacheSet ⟨5, 16, 1⟩ [("k", ⟨1, 0⟩)] "k" 2 1 0)
        (collectExpired [("k", ⟨1, 0⟩)] 1)) "k"
      = some ⟨2, 1 + ttlNanos ⟨5, 16, 1⟩⟩ :=
  ⟨⟨by decide, by decide⟩,
    c8_janitor_refresh ⟨5, 16, 1⟩ [("k", ⟨1, 0⟩)] [("k", ⟨1, 0⟩)] 1 1 2 0 "k"
      (by decide) (by decide)⟩

/-- Claim C7: for a token that was never created (empty memory cache, Redis
miss, record store returning no rows), the first Get returns the not-found
status (1, 0) and issues exactly one record-store query, and an immediate
second Get for the same token (within the negative-cache TTL window) again
returns (1, 0) while issuing no record-store query at all. -/
theorem c7_negative_cache (cfg : CacheConfig) (t : String) (now₁ now₂ : Int)
    (r₁ r₂ : Nat) (hM : 0 < cfg.memMaxsize)
    (hwin : now₂ ≤ now₁ + ttlNanos cfg) :
    serverGet (getUserIDBySession cfg [] now₁ r₁ t (RedisGet.ok "")
        (SqlRes.ok [])) = (1, 0) ∧
    (getUserIDBySession cfg [] now₁ r₁ t (RedisGet.ok "")
        (SqlRes.ok [])).sqlQueries = [getQuery t] ∧
    serverGet (getUserIDBySession cfg
        (getUserIDBySession cfg [] now₁ r₁ t (RedisGet.ok "") (SqlRes.ok [])).cache
        now₂ r₂ t (RedisGet.ok "") (SqlRes.ok [])) = (1, 0) ∧
    (getUserIDBySession cfg
        (getUserIDBySession cfg [] now₁ r₁ t (RedisGet.ok "") (SqlRes.ok [])).cache
        now₂ r₂ t (RedisGet.ok "") (SqlRes.ok [])).sqlQueries = [] := by
  have h₁ : getUserIDBySession cfg [] now₁ r₁ t (RedisGet.ok "") (SqlRes.ok [])
      = ⟨(0, some ("session not found: " ++ t)), cacheSet cfg [] t (-1) now₁ r₁,
         [(redisKeyOf t, "-1", 3600)], [getQuery t]⟩ := rfl
  have hset : cacheSet cfg [] t (-1) now₁ r₁
      = [(t, ⟨-1, now₁ + ttlNanos cfg⟩)] := by
    unfold cacheSet
    rw [if_neg]
    · rfl
    · intro hcond
      have hle := hcond.1
      simp at hle
      omega
  have hl : lookupItem [(t, ⟨-1, now₁ + ttlNanos cfg⟩)] t
      = some ⟨-1, now₁ + ttlNanos cfg⟩ := by
    unfold lookupItem
    rw [if_pos rfl]
  have hget : cacheGet [(t, ⟨-1, now₁ + ttlNanos cfg⟩)] t now₂ = (-1, true) := by
    unfold cacheGet
    rw [hl]
    show (if now₂ > now₁ + ttlNanos cfg then ((0 : Int), false)
      else ((-1 : Int), true)) = (-1, true)
    rw [if_neg (show ¬ now₂ > now₁ + ttlNanos cfg by omega)]
  have h₂ : getUserIDBySession cfg [(t, ⟨-1, now₁ + ttlNanos cfg⟩)] now₂ r₂ t
      (RedisGet.ok "") (SqlRes.ok [])
      = ⟨(0, some ("invalid session: " ++ t)),
         [(t, ⟨-1, now₁ + ttlNanos cfg⟩)], [], []⟩ := by
    unfold getUserIDBySession
    rw [hget]
    simp
  rw [h₁]
  refine ⟨rfl, rfl, ?_, ?_⟩
  · show serverGet (getUserIDBySession cfg (cacheSet cfg [] t (-1) now₁ r₁)
        now₂ r₂ t (RedisGet.ok "") (SqlRes.ok [])) = (1, 0)
    rw [hset, h₂]
    rfl
  · show (getUserIDBySession cfg (cacheSet cfg [] t (-1) now₁ r₁)
        now₂ r₂ t (RedisGet.ok "") (SqlRes.ok [])).sqlQueries = []
    rw [hset, h₂]

/-- Claim C7 witness: the double Get at a concrete token and clock. -/
theorem c7_witness :
    (0 < cfgEx.memMaxsize ∧ (0 : Int) ≤ 0 + ttlNanos cfgEx) ∧
    serverGet (getUserIDBySession cfgEx
        (getUserIDBySession cfgEx [] 0 0 "a" (RedisGet.ok "") (SqlRes.ok [])).cache
        0 0 "a" (RedisGet.ok "") (SqlRes.ok [])) = (1, 0) :=
  ⟨⟨by decide, by decide⟩,
    (c7_negative_cache cfgEx "a" 0 0 0 0 (by decide) (by decide)).2.2.1⟩

theorem sqlStep_queries (cfg : CacheConfig) (c : CMap) (now : Int) (r : Nat)
    (t : String) (sql : SqlRes) :
    (sqlStep cfg c now r t sql).sqlQueries = [getQuery t] := by
  cases sql with
  | err m => rfl
  | nilResp => rfl
  | ok data =>
    cases data with
    | nil => rfl
    | cons row rest =>
      obtain ⟨l⟩ := row
      cases l with
      | nil => rfl
      | cons v₀ vrest =>
        cases v₀ with
        | i32 x =>
          by_cases hx : x ≤ 0 <;> simp [sqlStep, cacheInvalidSession, hx]
        | i64 x =>
          by_cases hx : wrap32 x ≤ 0 <;> simp [sqlStep, cacheInvalidSession, hx]
        | str s =>
          cases hp : parseInt32 s with
          | none => simp [sqlStep, cacheInvalidSession, hp]
          | some u =>
            by_cases hx : u ≤ 0 <;> simp [sqlStep, cacheInvalidSession, hp, hx]
        | other => rfl

/-- Claim C10: the SQL statements of resolve, create and invalidate are the
fixed templates with the caller-supplied token spliced in verbatim between
single quotes — character for character, with no escaping — so the
statement always contains exactly two more single quotes than the token
itself contains; and these are exactly the statements the operations
issue. -/
theorem c10_sql_verbatim_splice (t : String) (uid : Int) :
    ((getQuery t).data
      = "SELECT uid FROM session_db WHERE session_id = ".data
        ++ [sq] ++ t.data ++ [sq] ++ " LIMIT 1".data ∧
    countQuote (getQuery t) = countQuote t + 2) ∧
    ((deleteQuery t).data
      = "DELETE FROM session_db WHERE session_id = ".data
        ++ [sq] ++ t.data ++ [sq] ∧
    countQuote (deleteQuery t) = countQuote t + 2) ∧
    ((saveQuery t uid).data
      = "INSERT INTO session_db (session_id, uid) VALUES (".data
        ++ [sq] ++ t.data ++ [sq] ++ (", " ++ toString uid ++ ")").data ∧
    countQuote (saveQuery t uid)
      = countQuote t + countQuote (toString uid) + 2) ∧
    (∀ cfg c now r sql, (sqlStep cfg c now r t sql).sqlQueries = [getQuery t]) ∧
    (∀ cfg c now r sqlErr,
      (deleteSession cfg c now r t sqlErr).sqlQueries = [deleteQuery t]) ∧
    (∀ sqlErr, (saveSession t uid sqlErr).sqlQueries = [saveQuery t uid]) := by
  have hq : quoteS.data = [sq] := rfl
  have hget : (getQuery t).data
      = "SELECT uid FROM session_db WHERE session_id = ".data
        ++ [sq] ++ t.data ++ [sq] ++ " LIMIT 1".data := by
    simp [getQuery, String.data_append, hq]
  have hdel : (deleteQuery t).data
      = "DELETE FROM session_db WHERE session_id = ".data
        ++ [sq] ++ t.data ++ [sq] := by
    simp [deleteQuery, String.data_append, hq]
  have hsave : (saveQuery t uid).data
      = "INSERT INTO session_db (session_id, uid) VALUES (".data
        ++ [sq] ++ t.data ++ [sq] ++ (", " ++ toString uid ++ ")").data := by
    simp [saveQuery, String.data_append, hq]
  have h3 : List.count sq [sq] = 1 := by decide
  refine ⟨⟨hget, ?_⟩, ⟨hdel, ?_⟩, ⟨hsave, ?_⟩, ?_, ?_, ?_⟩
  · rw [countQuote, hget]
    simp only [List.count_append]
    have h1 : List.count sq "SELECT uid FROM session_db WHERE session_id = ".data
        = 0 := by decide
    have h2 : List.count sq " LIMIT 1".data = 0 := by decide
    simp only [h1, h2, h3, countQuote]
    omega
  · rw [countQuote, hdel]
    simp only [List.count_append]
    have h1 : List.count sq "DELETE FROM session_db WHERE session_id = ".data
        = 0 := by decide
    simp only [h1, h3, countQuote]
    omega
  · rw [countQuote, hsave]
    simp only [List.count_append, String.data_append]
    have h1 : List.count sq
        "INSERT INTO session_db (session_id, uid) VALUES (".data = 0 := by decide
    have h2 : List.count sq ", ".data = 0 := by decide
    have h4 : List.count sq ")".data = 0 := by decide
    simp only [h1, h2, h3, h4, countQuote]
    omega
  · intro cfg c now r sql
    exact sqlStep_queries cfg c now r t sql
  · intro cfg c now r sqlErr
    cases sqlErr <;> rfl
  · intro sqlErr
    cases sqlErr <;> rfl

/-- Claim C4: with a fixed maximum size M > 0 and in a well-formed state
(distinct keys, at most M of them, no binding equal to Go's zero item),
every cache operation keeps the key count at most M; a set of an absent key
when the cache holds exactly M keys first evicts exactly one existing key,
leaving the size constant at M; and a set of a present key evicts nothing:
it only overwrites that key's entry, resetting its expiry, and leaves every
other binding and the key set unchanged. -/
theorem c4_capacity (cfg : CacheConfig) (c : CMap) (k : String) (v now : Int)
    (r : Nat)
    (hM : 0 < cfg.memMaxsize)
    (hnd : (keysOf c).Nodup)
    (hle : c.length ≤ cfg.memMaxsize)
    (hz : ∀ p ∈ c, p.2 ≠ zeroItem) :
    (cacheSet cfg c k v now r).length ≤ cfg.memMaxsize ∧
    (mapDelete c k).length ≤ cfg.memMaxsize ∧
    (∀ tm ks, (phase2Delete tm c ks).length ≤ cfg.memMaxsize) ∧
    (lookupItem c k = none → c.length = cfg.memMaxsize →
      (cacheSet cfg c k v now r).length = cfg.memMaxsize ∧
      ∃ e ∈ keysOf c,
        keysOf (cacheSet cfg c k v now r) = ((keysOf c).erase e) ++ [k]) ∧
    (∀ it, lookupItem c k = some it →
      keysOf (cacheSet cfg c k v now r) = keysOf c ∧
      lookupItem (cacheSet cfg c k v now r) k = some ⟨v, now + ttlNanos cfg⟩ ∧
      ∀ k₂, ¬ k₂ = k →
        lookupItem (cacheSet cfg c k v now r) k₂ = lookupItem c k₂) := by
  refine ⟨?_, ?_, ?_, ?_, ?_⟩
  · cases hlk : lookupItem c k with
    | some it =>
      have hmem := lookup_some_mem c k it hlk
      have hzk : it ≠ zeroItem := hz (k, it) hmem
      have hcond : ¬(cfg.memMaxsize ≤ c.length ∧ mapGetDefault c k = zeroItem) := by
        intro hc
        apply hzk
        have hgd := hc.2
        rw [mapGetDefault, hlk] at hgd
        exact hgd
      have hset : cacheSet cfg c k v now r
          = mapInsert c k ⟨v, now + ttlNanos cfg⟩ := by
        unfold cacheSet
        rw [if_neg hcond]
      rw [hset, length_mapInsert_some c k _ it hlk]
      exact hle
    | none =>
      by_cases hfull : cfg.memMaxsize ≤ c.length
      · have hcond : cfg.memMaxsize ≤ c.length ∧ mapGetDefault c k = zeroItem :=
          ⟨hfull, by rw [mapGetDefault, hlk]; rfl⟩
        have hset : cacheSet cfg c k v now r
            = mapInsert (evictRandom c r) k ⟨v, now + ttlNanos cfg⟩ := by
          unfold cacheSet
          rw [if_pos hcond]
        have hpos : 0 < c.length := Nat.lt_of_lt_of_le hM hfull
        obtain ⟨e, he, hev⟩ := evictRandom_spec c r hpos
        have hlk₂ : lookupItem (mapDelete c e) k = none := by
          rw [lookup_mapDelete]
          by_cases hke : k = e
          · simp [hke]
          · simp [hke, hlk]
        rw [hset, hev, length_mapInsert_none _ _ _ hlk₂]
        have hlen := length_mapDelete_mem c e hnd he
        omega
      · have hcond : ¬(cfg.memMaxsize ≤ c.length ∧ mapGetDefault c k = zeroItem) :=
          fun hc => hfull hc.1
        have hset : cacheSet cfg c k v now r
            = mapInsert c k ⟨v, now + ttlNanos cfg⟩ := by
          unfold cacheSet
          rw [if_neg hcond]
        rw [hset, length_mapInsert_none c k _ hlk]
        omega
  · refine Nat.le_trans ?_ hle
    unfold mapDelete
    exact List.length_filter_le _ _
  · intro tm ks
    exact Nat.le_trans (phase2Delete_length_le tm ks c) hle
  · intro hlk hsz
    have hfull : cfg.memMaxsize ≤ c.length := Nat.le_of_eq hsz.symm
    have hcond : cfg.memMaxsize ≤ c.length ∧ mapGetDefault c k = zeroItem :=
      ⟨hfull, by rw [mapGetDefault, hlk]; rfl⟩
    have hset : cacheSet cfg c k v now r
        = mapInsert (evictRandom c r) k ⟨v, now + ttlNanos cfg⟩ := by
      unfold cacheSet
      rw [if_pos hcond]
    have hpos : 0 < c.length := Nat.lt_of_lt_of_le hM hfull
    obtain ⟨e, he, hev⟩ := evictRandom_spec c r hpos
    have hlk₂ : lookupItem (mapDelete c e) k = none := by
      rw [lookup_mapDelete]
      by_cases hke : k = e
      · simp [hke]
      · simp [hke, hlk]
    constructor
    · rw [hset, hev, length_mapInsert_none _ _ _ hlk₂]
      have hlen := length_mapDelete_mem c e hnd he
      omega
    · refine ⟨e, he, ?_⟩
      rw [hset, hev, keysOf_mapInsert_none _ _ _ hlk₂,
        keysOf_mapDelete c e hnd he]
  · intro it hlk
    have hmem := lookup_some_mem c k it hlk
    have hzk : it ≠ zeroItem := hz (k, it) hmem
    have hcond : ¬(cfg.memMaxsize ≤ c.length ∧ mapGetDefault c k = zeroItem) := by
      intro hc
      apply hzk
      have hgd := hc.2
      rw [mapGetDefault, hlk] at hgd
      exact hgd
    have hset : cacheSet cfg c k v now r
        = mapInsert c k ⟨v, now + ttlNanos cfg⟩ := by
      unfold cacheSet
      rw [if_neg hcond]
    refine ⟨?_, ?_, ?_⟩
    · rw [hset]
      exact keysOf_mapInsert_some c k _ it hlk
    · rw [hset]
      exact lookup_mapInsert_self c k _
    · intro k₂ hk
      rw [hset]
      exact lookup_mapInsert_ne c k k₂ _ hk

/-- Claim C4 witness: a two-entry cache at its maximum size 2; inserting the
absent key "c" keeps the size at 2. -/
theorem c4_witness :
    (0 < 2 ∧ (keysOf [("a", ⟨1, 10⟩), ("b", ⟨2, 20⟩)]).Nodup ∧
      ([("a", (⟨1, 10⟩ : MItem)), ("b", ⟨2, 20⟩)] : CMap).length ≤ 2 ∧
      (∀ p ∈ ([("a", (⟨1, 10⟩ : MItem)), ("b", ⟨2, 20⟩)] : CMap),
        p.2 ≠ zeroItem)) ∧
    (cacheSet ⟨5, 2, 1⟩ [("a", ⟨1, 10⟩), ("b", ⟨2, 20⟩)] "c" 7 0 0).length = 2 :=
  ⟨⟨by decide, by decide, by decide, by decide⟩,
    ((c4_capacity ⟨5, 2, 1⟩ [("a", ⟨1, 10⟩), ("b", ⟨2, 20⟩)] "c" 7 0 0
      (by decide) (by decide) (by decide) (by decide)).2.2.2.1
      (by decide) (by decide)).1⟩

end StealthIMSession
